import Mathlib

/-!
Verification of the tournament lifecycle, registration, bracket, chat and
ranking engine of the repository, as a shallow embedding in Lean.

Times are modelled as integers (milliseconds since the epoch); document ids
(Mongo ObjectIds) are modelled as strings, matching the `toString()`
comparisons performed by the route handlers.
-/

/-- Tournament status enumeration from the tournament schema. -/
inductive Status
  | draft
  | registration
  | upcoming
  | live
  | completed
  | cancelled
deriving DecidableEq, Repr

/-- The `dates` subdocument: registration window, start, optional end. -/
structure Schedule where
  registrationStart : Int
  registrationEnd : Int
  tournamentStart : Int
  tournamentEnd : Option Int
deriving DecidableEq, Repr

/-- JS `!this.dates.tournamentEnd || now <= this.dates.tournamentEnd`. -/
def noEndOrNotPast (tournamentEnd : Option Int) (now : Int) : Bool :=
  match tournamentEnd with
  | none => true
  | some te => now ≤ te

/-- JS `this.dates.tournamentEnd && now > this.dates.tournamentEnd`. -/
def endSetAndPast (tournamentEnd : Option Int) (now : Int) : Bool :=
  match tournamentEnd with
  | none => false
  | some te => te < now

/-- `tournamentSchema.methods.updateStatus`: recomputes the status from the
clock and the schedule; the trailing `else` case (no branch taken) leaves
the stored status unchanged, mirroring the if/else-if chain. -/
def updateStatus (dates : Schedule) (now : Int) (status : Status) : Status :=
  if now < dates.registrationStart then
    Status.draft
  else if dates.registrationStart ≤ now ∧ now ≤ dates.registrationEnd then
    Status.registration
  else if dates.registrationEnd < now ∧ now < dates.tournamentStart then
    Status.upcoming
  else if dates.tournamentStart ≤ now ∧ noEndOrNotPast dates.tournamentEnd now then
    Status.live
  else if endSetAndPast dates.tournamentEnd now then
    Status.completed
  else
    status

/-- The five time branches of `updateStatus` are exhaustive, so the result
does not depend on the stored status. -/
theorem updateStatus_indep (dates : Schedule) (now : Int) (st1 st2 : Status) :
    updateStatus dates now st1 = updateStatus dates now st2 := by
  unfold updateStatus
  split_ifs with h1 h2 h3 h4 h5 <;> try rfl
  exfalso
  cases hte : dates.tournamentEnd with
  | none =>
    simp [noEndOrNotPast, hte] at h4
    omega
  | some te =>
    simp [noEndOrNotPast, hte] at h4
    simp [endSetAndPast, hte] at h5
    omega

/-- Claim C1 counterexample: a tournament whose stored status is `cancelled`,
with the clock inside the registration window, has its status overwritten to
`registration` by `updateStatus` — cancellation is not sticky. -/
theorem updateStatus_overwrites_cancelled :
    updateStatus ⟨0, 10, 20, none⟩ 5 Status.cancelled = Status.registration ∧
    Status.registration ≠ Status.cancelled := by
  exact ⟨by decide, by decide⟩

/-- Claim C1 (amended): `updateStatus` never yields `cancelled`: its five time
branches are exhaustive, so an explicitly set `cancelled` status is always
overwritten by the time-derived status, whatever the schedule and time. -/
theorem updateStatus_ne_cancelled (dates : Schedule) (now : Int) (st : Status) :
    updateStatus dates now st ≠ Status.cancelled := by
  rw [updateStatus_indep dates now st Status.draft]
  unfold updateStatus
  split_ifs <;> decide

/-- Claim C7: for a well-ordered schedule the derived status follows the
stated time mapping — `draft` before registration opens, `registration`
inside the inclusive window, `upcoming` strictly between close and start,
`live` from the start while the end is unset or not yet passed, `completed`
strictly after a set end; moreover with no end set the status can never be
`completed`, and from the start onwards it is `live` indefinitely. The
mapping is a pure function of schedule and time (it ignores the stored
status), so repeated evaluation is idempotent. -/
theorem updateStatus_mapping (dates : Schedule) (now : Int) (st : Status)
    (hre : dates.registrationStart ≤ dates.registrationEnd)
    (hts : dates.registrationEnd ≤ dates.tournamentStart)
    (hend : ∀ te, dates.tournamentEnd = some te → dates.tournamentStart ≤ te) :
    (now < dates.registrationStart → updateStatus dates now st = Status.draft) ∧
    (dates.registrationStart ≤ now → now ≤ dates.registrationEnd →
      updateStatus dates now st = Status.registration) ∧
    (dates.registrationEnd < now → now < dates.tournamentStart →
      updateStatus dates now st = Status.upcoming) ∧
    (dates.registrationEnd < now → dates.tournamentStart ≤ now →
      (∀ te, dates.tournamentEnd = some te → now ≤ te) →
      updateStatus dates now st = Status.live) ∧
    (∀ te, dates.tournamentEnd = some te → te < now →
      updateStatus dates now st = Status.completed) ∧
    (dates.tournamentEnd = none →
      updateStatus dates now st ≠ Status.completed) ∧
    (dates.tournamentEnd = none → dates.registrationEnd < dates.tournamentStart →
      dates.tournamentStart ≤ now → updateStatus dates now st = Status.live) := by
  refine ⟨?_, ?_, ?_, ?_, ?_, ?_, ?_⟩
  · intro h
    unfold updateStatus
    rw [if_pos h]
  · intro h1 h2
    unfold updateStatus
    rw [if_neg (by omega), if_pos ⟨h1, h2⟩]
  · intro h1 h2
    unfold updateStatus
    rw [if_neg (by omega), if_neg (by omega), if_pos ⟨h1, h2⟩]
  · intro h1 h2 h3
    unfold updateStatus
    have hok : noEndOrNotPast dates.tournamentEnd now = true := by
      cases hte : dates.tournamentEnd with
      | none => rfl
      | some te => simpa [noEndOrNotPast] using h3 te hte
    rw [if_neg (by omega), if_neg (by omega), if_neg (by omega),
      if_pos ⟨h2, hok⟩]
  · intro te hte hlt
    have hts2 := hend te hte
    unfold updateStatus
    rw [if_neg (by omega), if_neg (by omega), if_neg (by omega),
      if_neg (by simp [noEndOrNotPast, hte]; omega),
      if_pos (by simp [endSetAndPast, hte]; omega)]
  · intro hnone
    rw [updateStatus_indep dates now st Status.draft]
    unfold updateStatus
    split_ifs with h1 h2 h3 h4 h5
    · decide
    · decide
    · decide
    · decide
    · exfalso
      simp [endSetAndPast, hnone] at h5
    · decide
  · intro hnone h1 h2
    unfold updateStatus
    rw [if_neg (by omega), if_neg (by omega), if_neg (by omega),
      if_pos ⟨h2, by simp [noEndOrNotPast, hnone]⟩]

/-- Witness for the C7 mapping theorem: for the schedule
`regOpen = 0, regClose = 10, start = 20`, no end, at time 25 the derived
status is `live`. -/
theorem updateStatus_mapping_witness :
    updateStatus ⟨0, 10, 20, none⟩ 25 Status.draft = Status.live :=
  (updateStatus_mapping ⟨0, 10, 20, none⟩ 25 Status.draft (by decide) (by decide)
    (fun te h => by cases h)).2.2.2.2.2.2 rfl (by decide) (by decide)

/-- Roster-entry status enumeration from the `participants.teams` schema. -/
inductive TeamStatus
  | registered
  | confirmed
  | eliminated
  | winner
deriving DecidableEq, Repr

/-- One player reference inside a roster entry. -/
structure Player where
  userId : String
  username : String
  role : String
deriving DecidableEq, Repr

/-- One roster entry of `participants.teams`. -/
structure TeamEntry where
  teamId : String
  players : List Player
  registeredAt : Int
  status : TeamStatus
  score : Int
  placement : Option Nat
deriving DecidableEq, Repr

/-- The `participants` subdocument. -/
structure Participants where
  maxTeams : Int
  currentTeams : Int
  teams : List TeamEntry
deriving DecidableEq, Repr

/-- A match score, `score.team1Score` / `score.team2Score`. -/
structure MatchScore where
  team1Score : Int
  team2Score : Int
deriving DecidableEq, Repr

/-- Match status enumeration from the `brackets.matches` schema. -/
inductive MatchStatus
  | pending
  | live
  | completed
deriving DecidableEq, Repr

/-- One match of a bracket round. -/
structure BracketMatch where
  matchId : String
  team1 : Option String
  team2 : Option String
  winner : Option String
  score : Option MatchScore
  status : MatchStatus
  scheduledTime : Option Int
  completedAt : Option Int
deriving DecidableEq, Repr

/-- One round of the `brackets` array. -/
structure BracketRound where
  round : Nat
  «matches» : List BracketMatch
deriving DecidableEq, Repr

/-- One entry of the `chat` array; `msgId` models the Mongo `_id` of the
subdocument, `userId = none` marks a system message. -/
structure ChatMessage where
  msgId : String
  userId : Option String
  username : String
  message : String
  timestamp : Int
  isSystemMessage : Bool
deriving DecidableEq, Repr

/-- The `statistics` subdocument (the fields the routes touch). -/
structure Statistics where
  totalRegistrations : Nat
  totalViews : Nat
  peakViewers : Nat
deriving DecidableEq, Repr

/-- The tournament aggregate (the fields the verified routes read or
write). -/
structure Tournament where
  status : Status
  dates : Schedule
  participants : Participants
  brackets : List BracketRound
  chat : List ChatMessage
  statistics : Statistics
  organizerId : String
deriving DecidableEq, Repr

/-- The `registrationOpen` virtual:
`now >= registrationStart && now <= registrationEnd && status === 'registration'`.
Note it reads the stored status, not a freshly derived one. -/
def registrationOpen (t : Tournament) (now : Int) : Bool :=
  (t.dates.registrationStart ≤ now) && (now ≤ t.dates.registrationEnd) &&
    (t.status = Status.registration)

/-- `tournamentSchema.methods.registerTeam`: throws when full or when
registration is not open, otherwise appends the team and bumps the two
counters. -/
def registerTeam (t : Tournament) (now : Int) (teamData : TeamEntry) :
    Except String Tournament :=
  if t.participants.maxTeams ≤ t.participants.currentTeams then
    Except.error "Tournament is full"
  else if ! registrationOpen t now then
    Except.error "Registration is not open"
  else
    Except.ok { t with
      participants := { t.participants with
        teams := t.participants.teams ++ [teamData],
        currentTeams := t.participants.currentTeams + 1 },
      statistics := { t.statistics with
        totalRegistrations := t.statistics.totalRegistrations + 1 } }

/-- Does this roster entry contain the player (by userId string equality)? -/
def teamHasPlayer (uid : String) (team : TeamEntry) : Bool :=
  team.players.any (fun p => p.userId = uid)

/-- The duplicate-registration check of `POST /:id/register`. -/
def alreadyRegistered (t : Tournament) (uid : String) : Bool :=
  t.participants.teams.any (teamHasPlayer uid)

/-- The solo team document the register route builds for the caller. -/
def mkTeamData (uid uname : String) (now : Int) : TeamEntry :=
  { teamId := uid
    players := [{ userId := uid, username := uname, role := "player" }]
    registeredAt := now
    status := TeamStatus.registered
    score := 0
    placement := none }

/-- `POST /api/tournaments/:id/register`: duplicate check first, then
`registerTeam`; on success the response carries the updated
`currentTeams`. -/
def routeRegister (t : Tournament) (now : Int) (uid uname : String) :
    Except String (Tournament × Int) :=
  if alreadyRegistered t uid then
    Except.error "Already registered for this tournament"
  else
    match registerTeam t now (mkTeamData uid uname now) with
    | Except.error e => Except.error e
    | Except.ok t2 => Except.ok (t2, t2.participants.currentTeams)

/-- `DELETE /api/tournaments/:id/unregister`: refuses on live/completed
status, then removes the caller's team and decrements the counter. -/
def routeUnregister (t : Tournament) (uid : String) : Except String Tournament :=
  if t.status = Status.live ∨ t.status = Status.completed then
    Except.error "Cannot unregister from active or completed tournament"
  else
    match t.participants.teams.findIdx? (teamHasPlayer uid) with
    | none => Except.error "Not registered for this tournament"
    | some i =>
      Except.ok { t with participants := { t.participants with
        teams := t.participants.teams.eraseIdx i,
        currentTeams := t.participants.currentTeams - 1 } }

/-- A fresh tournament as built by `POST /api/tournaments`: schema defaults
(`status: draft`, `currentTeams: 0`, empty roster/brackets/chat/stats)
followed by the route's `updateStatus()` call. -/
def mkTournament (dates : Schedule) (maxTeams : Int) (organizerId : String)
    (now : Int) : Tournament :=
  let t : Tournament :=
    { status := Status.draft
      dates := dates
      participants := { maxTeams := maxTeams, currentTeams := 0, teams := [] }
      brackets := []
      chat := []
      statistics := { totalRegistrations := 0, totalViews := 0, peakViewers := 0 }
      organizerId := organizerId }
  { t with status := updateStatus t.dates now t.status }

/-- The capacity invariant of the spec:
`0 ≤ currentTeams ≤ maxTeams` and `currentTeams = len(roster)`. -/
def capacityInv (t : Tournament) : Prop :=
  0 ≤ t.participants.currentTeams ∧
  t.participants.currentTeams ≤ t.participants.maxTeams ∧
  t.participants.currentTeams = (t.participants.teams.length : Int)

instance (t : Tournament) : Decidable (capacityInv t) := by
  unfold capacityInv
  infer_instance

/-- The tournament state after a register attempt, successful or not. -/
def afterRegister (t : Tournament) (now : Int) (uid uname : String) : Tournament :=
  match routeRegister t now uid uname with
  | Except.ok p => p.1
  | Except.error _ => t

/-- The tournament state after an unregister attempt, successful or not. -/
def afterUnregister (t : Tournament) (uid : String) : Tournament :=
  match routeUnregister t uid with
  | Except.ok t2 => t2
  | Except.error _ => t

/-- A concrete tournament whose stored status (`draft`) is stale: the clock
at time 5 is already inside the registration window `[0, 10]`. -/
def staleTournament : Tournament :=
  { status := Status.draft
    dates := ⟨0, 10, 20, none⟩
    participants := { maxTeams := 4, currentTeams := 0, teams := [] }
    brackets := []
    chat := []
    statistics := { totalRegistrations := 0, totalViews := 0, peakViewers := 0 }
    organizerId := "org" }

/-- Claim C2 counterexample: at time 5 the tournament is not full, the
time-derived status is `registration`, and the submitted player is not a
duplicate, yet the register route fails, because the `registrationOpen`
check reads the stale stored status (`draft`) instead of the derived one. -/
theorem routeRegister_claim_false :
    ¬ (staleTournament.participants.maxTeams ≤
        staleTournament.participants.currentTeams) ∧
    updateStatus staleTournament.dates 5 staleTournament.status =
      Status.registration ∧
    alreadyRegistered staleTournament "alice" = false ∧
    routeRegister staleTournament 5 "alice" "Alice" =
      Except.error "Registration is not open" := by
  refine ⟨by decide, by decide, by decide, by rfl⟩

/-- Claim C2 (amended): the register route checks duplicates first, then
capacity, then the registration window conjoined with the *stored* status
being `registration`; on success it appends the team (status `registered`),
increments `currentTeams` and `totalRegistrations` by one and returns the
updated `currentTeams`, which equals the new roster size whenever the
capacity invariant held before. -/
theorem routeRegister_spec (t : Tournament) (now : Int) (uid uname : String) :
    (alreadyRegistered t uid = true →
      routeRegister t now uid uname =
        Except.error "Already registered for this tournament") ∧
    (alreadyRegistered t uid = false →
      t.participants.maxTeams ≤ t.participants.currentTeams →
      routeRegister t now uid uname = Except.error "Tournament is full") ∧
    (alreadyRegistered t uid = false →
      t.participants.currentTeams < t.participants.maxTeams →
      registrationOpen t now = false →
      routeRegister t now uid uname = Except.error "Registration is not open") ∧
    (alreadyRegistered t uid = false →
      t.participants.currentTeams < t.participants.maxTeams →
      registrationOpen t now = true →
      routeRegister t now uid uname =
        Except.ok ({ t with
          participants := { t.participants with
            teams := t.participants.teams ++ [mkTeamData uid uname now],
            currentTeams := t.participants.currentTeams + 1 },
          statistics := { t.statistics with
            totalRegistrations := t.statistics.totalRegistrations + 1 } },
          t.participants.currentTeams + 1) ∧
      (mkTeamData uid uname now).status = TeamStatus.registered ∧
      (capacityInv t →
        t.participants.currentTeams + 1 =
          ((t.participants.teams ++ [mkTeamData uid uname now]).length : Int))) ∧
    (registrationOpen t now = true ↔
      (t.dates.registrationStart ≤ now ∧ now ≤ t.dates.registrationEnd ∧
        t.status = Status.registration)) := by
  refine ⟨?_, ?_, ?_, ?_, ?_⟩
  · intro h
    unfold routeRegister
    rw [if_pos h]
  · intro hdup hfull
    unfold routeRegister registerTeam
    rw [if_neg (by simp [hdup]), if_pos hfull]
  · intro hdup hroom hclosed
    unfold routeRegister registerTeam
    rw [if_neg (by simp [hdup]), if_neg (by omega), if_pos (by simp [hclosed])]
  · intro hdup hroom hopen
    refine ⟨?_, rfl, ?_⟩
    · unfold routeRegister registerTeam
      rw [if_neg (by simp [hdup]), if_neg (by omega), if_neg (by simp [hopen])]
    · intro hinv
      obtain ⟨-, -, hlen⟩ := hinv
      rw [List.length_append, List.length_singleton]
      push_cast
      omega
  · simp [registrationOpen, and_assoc]

/-- Witness for the C2 amended theorem, at the stale-status tournament:
the registration-closed branch fires at time 5. -/
theorem routeRegister_spec_witness :
    routeRegister staleTournament 5 "alice" "Alice" =
      Except.error "Registration is not open" :=
  (routeRegister_spec staleTournament 5 "alice" "Alice").2.2.1
    (by decide) (by decide) (by decide)

/-- Claim C3: the capacity invariant `0 ≤ currentTeams ≤ maxTeams` with
`currentTeams` equal to the roster length holds for a freshly created
tournament (given a non-negative `maxTeams`, which route validation
guarantees with `min 2`), and is preserved by the register and unregister
routes whether they succeed or fail. -/
theorem capacity_invariant (dates : Schedule) (maxTeams : Int) (org : String)
    (now now2 : Int) (t : Tournament) (uid uid2 uname : String)
    (hmax : 0 ≤ maxTeams) (hinv : capacityInv t) :
    capacityInv (mkTournament dates maxTeams org now) ∧
    capacityInv (afterRegister t now2 uid uname) ∧
    capacityInv (afterUnregister t uid2) := by
  obtain ⟨h0, h1, h2⟩ := hinv
  refine ⟨⟨by simp [mkTournament], by simpa [mkTournament] using hmax,
    by simp [mkTournament]⟩, ?_, ?_⟩
  · unfold afterRegister routeRegister registerTeam
    split_ifs with hdup hfull hopen
    · exact ⟨h0, h1, h2⟩
    · exact ⟨h0, h1, h2⟩
    · exact ⟨h0, h1, h2⟩
    · refine ⟨show (0 : Int) ≤ t.participants.currentTeams + 1 by omega,
        show t.participants.currentTeams + 1 ≤ t.participants.maxTeams by omega,
        ?_⟩
      show t.participants.currentTeams + 1 =
        ((t.participants.teams ++ [mkTeamData uid uname now2]).length : Int)
      rw [List.length_append, List.length_singleton]
      push_cast
      omega
  · unfold afterUnregister routeUnregister
    split_ifs with hlock
    · exact ⟨h0, h1, h2⟩
    · cases hfind : t.participants.teams.findIdx? (teamHasPlayer uid2) with
      | none => exact ⟨h0, h1, h2⟩
      | some i =>
        have hi : i < t.participants.teams.length :=
          (List.findIdx?_eq_some_iff_findIdx_eq.mp hfind).1
        refine ⟨show (0 : Int) ≤ t.participants.currentTeams - 1 by omega,
          show t.participants.currentTeams - 1 ≤ t.participants.maxTeams by omega,
          ?_⟩
        show t.participants.currentTeams - 1 =
          ((t.participants.teams.eraseIdx i).length : Int)
        rw [List.length_eraseIdx, if_pos hi]
        omega

/-- Witness for the C3 invariant theorem at a concrete fresh tournament. -/
theorem capacity_invariant_witness :
    capacityInv (mkTournament ⟨0, 10, 20, none⟩ 4 "org" 0) ∧
    capacityInv (afterRegister staleTournament 5 "alice" "Alice") ∧
    capacityInv (afterUnregister staleTournament "bob") :=
  capacity_invariant ⟨0, 10, 20, none⟩ 4 "org" 0 5 staleTournament
    "alice" "bob" "Alice" (by decide) (by decide)

/-- Decimal rendering of a natural number (big-endian digit characters), the
model of the template-string interpolation in the JS match ids; fuel-based
structural recursion so it evaluates by kernel reduction. -/
def natReprAux : Nat → Nat → List Char
  | 0, _ => []
  | fuel + 1, n =>
    if n = 0 then []
    else natReprAux fuel (n / 10) ++ [Nat.digitChar (n % 10)]

/-- Decimal string of a natural number. -/
def natRepr (n : Nat) : String :=
  if n = 0 then "0" else String.mk (natReprAux n n)

/-- Numeric value of a decimal digit character. -/
def digitVal (c : Char) : Nat := c.toNat - 48

/-- Value of a big-endian digit-character list. -/
def digitsVal (l : List Char) : Nat :=
  l.foldl (fun acc c => acc * 10 + digitVal c) 0

lemma digitVal_digitChar : ∀ m, m < 10 → digitVal (Nat.digitChar m) = m := by
  decide

lemma digitsVal_append_digit (l : List Char) (c : Char) :
    digitsVal (l ++ [c]) = digitsVal l * 10 + digitVal c := by
  simp [digitsVal, List.foldl_append]

lemma natReprAux_val : ∀ (fuel n : Nat), n ≤ fuel →
    digitsVal (natReprAux fuel n) = n := by
  intro fuel
  induction fuel with
  | zero =>
    intro n hn
    have h0 : n = 0 := by omega
    subst h0
    rfl
  | succ f ih =>
    intro n hn
    unfold natReprAux
    split_ifs with h0
    · subst h0
      rfl
    · rw [digitsVal_append_digit, ih (n / 10) (by omega),
        digitVal_digitChar (n % 10) (Nat.mod_lt _ (by norm_num))]
      omega

lemma digitsVal_natRepr (n : Nat) : digitsVal (natRepr n).data = n := by
  unfold natRepr
  split_ifs with h0
  · subst h0
    rfl
  · exact natReprAux_val n n le_rfl

lemma natRepr_inj {a b : Nat} (h : natRepr a = natRepr b) : a = b := by
  have h2 := congrArg (fun s => digitsVal s.data) h
  simpa [digitsVal_natRepr] using h2

lemma natReprAux_no_M : ∀ (fuel n : Nat), 'M' ∉ natReprAux fuel n := by
  intro fuel
  induction fuel with
  | zero =>
    intro n h
    simp [natReprAux] at h
  | succ f ih =>
    intro n
    unfold natReprAux
    split_ifs with h0
    · simp
    · intro hmem
      rcases List.mem_append.mp hmem with h | h
      · exact ih _ h
      · have h10 : n % 10 < 10 := Nat.mod_lt _ (by norm_num)
        have hne : ∀ m, m < 10 → Nat.digitChar m ≠ 'M' := by decide
        simp at h
        exact hne _ h10 h.symm

lemma natRepr_no_M (n : Nat) : 'M' ∉ (natRepr n).data := by
  unfold natRepr
  split_ifs with h0
  · decide
  · exact natReprAux_no_M n n

lemma append_sep_inj : ∀ (l1 : List Char) {l2 l3 l4 : List Char},
    'M' ∉ l1 → 'M' ∉ l3 →
    l1 ++ 'M' :: l2 = l3 ++ 'M' :: l4 → l1 = l3 ∧ l2 = l4 := by
  intro l1
  induction l1 with
  | nil =>
    intro l2 l3 l4 h1 h3 h
    cases l3 with
    | nil => simpa using h
    | cons c cs =>
      simp at h
      exact absurd (h.1 ▸ List.mem_cons_self c cs) h3
  | cons c cs ih =>
    intro l2 l3 l4 h1 h3 h
    cases l3 with
    | nil =>
      simp at h
      exact absurd (h.1 ▸ List.mem_cons_self c cs) h1
    | cons d ds =>
      simp at h
      obtain ⟨hcd, hrest⟩ := h
      have hr := ih (fun hm => h1 (List.mem_cons_of_mem _ hm))
        (fun hm => h3 (List.mem_cons_of_mem _ hm)) hrest
      exact ⟨by rw [hcd, hr.1], hr.2⟩

/-- The deterministic match id scheme of the bracket generator:
`R{round}M{index}`. -/
def bracketMatchId (round idx : Nat) : String :=
  "R" ++ natRepr round ++ "M" ++ natRepr idx

lemma bracketMatchId_inj {r1 i1 r2 i2 : Nat}
    (h : bracketMatchId r1 i1 = bracketMatchId r2 i2) : r1 = r2 ∧ i1 = i2 := by
  have hd := congrArg String.data h
  simp only [bracketMatchId, String.data_append, List.append_assoc,
    List.singleton_append] at hd
  have hd2 := congrArg List.tail hd
  simp only [List.tail_cons] at hd2
  obtain ⟨ha, hb⟩ := append_sep_inj (natRepr r1).data (natRepr_no_M r1)
    (natRepr_no_M r2) hd2
  exact ⟨natRepr_inj (congrArg String.mk ha), natRepr_inj (congrArg String.mk hb)⟩

/-- Fuel-based ceiling base-2 logarithm (fuel ≥ n suffices). -/
def log2Fuel : Nat → Nat → Nat
  | 0, _ => 0
  | fuel + 1, n => if n ≤ 1 then 0 else log2Fuel fuel ((n + 1) / 2) + 1

/-- `Math.ceil(Math.log2(numTeams))` of the bracket generator. For
`numTeams = 0` the JS value is `-Infinity` and the generation loop runs zero
times, which the value `0` reproduces. -/
def ceilLog2 (n : Nat) : Nat := log2Fuel n n

lemma log2Fuel_eq_clog : ∀ (fuel n : Nat), n ≤ fuel →
    log2Fuel fuel n = Nat.clog 2 n := by
  intro fuel
  induction fuel with
  | zero =>
    intro n hn
    have h0 : n = 0 := by omega
    subst h0
    simp [log2Fuel, Nat.clog_zero_right]
  | succ f ih =>
    intro n hn
    unfold log2Fuel
    split_ifs with h1
    · rcases (by omega : n = 0 ∨ n = 1) with h | h <;>
        simp [h, Nat.clog_zero_right, Nat.clog_one_right]
    · rw [ih ((n + 1) / 2) (by omega)]
      conv_rhs => rw [Nat.clog_of_two_le (by norm_num) (by omega : 2 ≤ n)]
      norm_num

lemma ceilLog2_eq_clog (n : Nat) : ceilLog2 n = Nat.clog 2 n :=
  log2Fuel_eq_clog n n le_rfl

/-- The roster filtered to teams with status `confirmed`, in roster order. -/
def confirmedTeams (t : Tournament) : List TeamEntry :=
  t.participants.teams.filter (fun tm => tm.status = TeamStatus.confirmed)

/-- One generated match: id `R{round}M{i+1}`; only round 1 is seeded, with
`teams[i*2]` and `teams[i*2+1]` (absent entries give an empty slot, matching
the JS optional chaining on an out-of-range index). -/
def genMatch (teams : List TeamEntry) (round i : Nat) : BracketMatch :=
  { matchId := bracketMatchId round (i + 1)
    team1 := if round = 1 then (teams.get? (i * 2)).map TeamEntry.teamId else none
    team2 := if round = 1 then (teams.get? (i * 2 + 1)).map TeamEntry.teamId else none
    winner := none
    score := none
    status := MatchStatus.pending
    scheduledTime := none
    completedAt := none }

/-- One generated round: `teamsInRound = 2^(rounds - round + 1)` teams, half
as many matches, i.e. `2^(rounds - round)` matches. -/
def genRound (teams : List TeamEntry) (rounds round : Nat) : BracketRound :=
  { round := round
    «matches» := (List.range (2 ^ (rounds - round))).map (genMatch teams round) }

/-- `tournamentSchema.methods.generateBrackets`: replaces the whole bracket
with rounds `1..ceil(log2 n)` over the confirmed roster. -/
def generateBrackets (t : Tournament) : Tournament :=
  let teams := confirmedTeams t
  let rounds := ceilLog2 teams.length
  { t with brackets := (List.range rounds).map (fun r => genRound teams rounds (r + 1)) }

/-- Claim C4: on `n ≥ 2` confirmed teams the generator yields
`R = ceil(log2 n)` rounds; the round at 0-based position `r` is labelled
`r+1` and has `2^(R-(r+1))` matches; every match is `pending` with no winner
and id `R{r+1}M{i+1}`; round 1 pairs roster entries `2i` vs `2i+1`, later
rounds have empty team slots; the ids are unique across the bracket; and
`n = 8` gives match counts `4, 2, 1`. -/
theorem generateBrackets_spec (t : Tournament)
    (_hn : 2 ≤ (confirmedTeams t).length) :
    (generateBrackets t).brackets.length =
      Nat.clog 2 (confirmedTeams t).length ∧
    (∀ r rd, (generateBrackets t).brackets.get? r = some rd →
      rd.round = r + 1 ∧
      rd.«matches».length =
        2 ^ (Nat.clog 2 (confirmedTeams t).length - (r + 1)) ∧
      (∀ i m, rd.«matches».get? i = some m →
        m.matchId = bracketMatchId (r + 1) (i + 1) ∧
        m.status = MatchStatus.pending ∧
        m.winner = none ∧ m.score = none ∧
        (r = 0 →
          m.team1 = ((confirmedTeams t).get? (i * 2)).map TeamEntry.teamId ∧
          m.team2 = ((confirmedTeams t).get? (i * 2 + 1)).map TeamEntry.teamId) ∧
        (0 < r → m.team1 = none ∧ m.team2 = none))) ∧
    (∀ r1 rd1 i1 m1 r2 rd2 i2 m2,
      (generateBrackets t).brackets.get? r1 = some rd1 →
      rd1.«matches».get? i1 = some m1 →
      (generateBrackets t).brackets.get? r2 = some rd2 →
      rd2.«matches».get? i2 = some m2 →
      m1.matchId = m2.matchId → r1 = r2 ∧ i1 = i2) ∧
    ((confirmedTeams t).length = 8 →
      (generateBrackets t).brackets.map (fun rd => rd.«matches».length) =
        [4, 2, 1]) := by
  have hb : (generateBrackets t).brackets =
      (List.range (ceilLog2 (confirmedTeams t).length)).map
        (fun r => genRound (confirmedTeams t)
          (ceilLog2 (confirmedTeams t).length) (r + 1)) := rfl
  have hget : ∀ r rd, (generateBrackets t).brackets.get? r = some rd →
      r < ceilLog2 (confirmedTeams t).length ∧
      rd = genRound (confirmedTeams t)
        (ceilLog2 (confirmedTeams t).length) (r + 1) := by
    intro r rd hr
    rw [hb, List.get?_eq_getElem?, List.getElem?_map] at hr
    by_cases hlt : r < ceilLog2 (confirmedTeams t).length
    · rw [List.getElem?_range hlt] at hr
      simp at hr
      exact ⟨hlt, hr.symm⟩
    · rw [List.getElem?_eq_none (by simpa using hlt)] at hr
      simp at hr
  have hmatch : ∀ rounds round i m,
      (genRound (confirmedTeams t) rounds round).«matches».get? i = some m →
      i < 2 ^ (rounds - round) ∧ m = genMatch (confirmedTeams t) round i := by
    intro rounds round i m hm
    unfold genRound at hm
    rw [List.get?_eq_getElem?, List.getElem?_map] at hm
    by_cases hlt : i < 2 ^ (rounds - round)
    · rw [List.getElem?_range hlt] at hm
      simp at hm
      exact ⟨hlt, hm.symm⟩
    · rw [List.getElem?_eq_none (by simpa using hlt)] at hm
      simp at hm
  refine ⟨?_, ?_, ?_, ?_⟩
  · rw [hb, List.length_map, List.length_range, ceilLog2_eq_clog]
  · intro r rd hr
    obtain ⟨hlt, hrd⟩ := hget r rd hr
    subst hrd
    refine ⟨rfl, ?_, ?_⟩
    · unfold genRound
      simp [List.length_map, List.length_range, ceilLog2_eq_clog]
    · intro i m hm
      obtain ⟨hilt, hmeq⟩ := hmatch _ _ i m hm
      subst hmeq
      refine ⟨rfl, rfl, rfl, rfl, ?_, ?_⟩
      · intro h0
        subst h0
        exact ⟨rfl, rfl⟩
      · intro hpos
        constructor <;>
          simp [genMatch, Nat.ne_of_gt (by omega : 1 < r + 1) |>.symm] <;>
          omega
  · intro r1 rd1 i1 m1 r2 rd2 i2 m2 hr1 hm1 hr2 hm2 heq
    obtain ⟨hlt1, hrd1⟩ := hget r1 rd1 hr1
    obtain ⟨hlt2, hrd2⟩ := hget r2 rd2 hr2
    subst hrd1
    subst hrd2
    obtain ⟨hi1, hm1e⟩ := hmatch _ _ i1 m1 hm1
    obtain ⟨hi2, hm2e⟩ := hmatch _ _ i2 m2 hm2
    subst hm1e
    subst hm2e
    have hids : bracketMatchId (r1 + 1) (i1 + 1) =
        bracketMatchId (r2 + 1) (i2 + 1) := heq
    obtain ⟨ha, hc⟩ := bracketMatchId_inj hids
    omega
  · intro h8
    rw [hb, h8]
    have h3 : ceilLog2 8 = 3 := by decide
    rw [h3, List.map_map]
    simp only [Function.comp_def, genRound, List.length_map, List.length_range]
    decide

/-- A confirmed solo roster entry used by the bracket witnesses. -/
def mkConfirmedTeam (uid : String) : TeamEntry :=
  { teamId := uid
    players := [{ userId := uid, username := uid, role := "player" }]
    registeredAt := 0
    status := TeamStatus.confirmed
    score := 0
    placement := none }

/-- A tournament with eight confirmed teams. -/
def eightTeamTournament : Tournament :=
  { staleTournament with participants :=
      { maxTeams := 8, currentTeams := 8,
        teams := ["a", "b", "c", "d", "e", "f", "g", "h"].map mkConfirmedTeam } }

/-- Witness for the C4 bracket theorem at the eight-team tournament. -/
theorem generateBrackets_spec_witness :
    (generateBrackets eightTeamTournament).brackets.length =
      Nat.clog 2 (confirmedTeams eightTeamTournament).length :=
  (generateBrackets_spec eightTeamTournament (by decide)).1

/-- Claim C10: with at most one confirmed team the computed round count is
zero, so the generation loop produces no rounds at all: the bracket is
replaced by the empty list and no match is created. -/
theorem generateBrackets_small (t : Tournament)
    (h1 : (confirmedTeams t).length ≤ 1) :
    ceilLog2 (confirmedTeams t).length = 0 ∧
    (generateBrackets t).brackets = [] := by
  rcases (by omega : (confirmedTeams t).length = 0 ∨
      (confirmedTeams t).length = 1) with h | h <;>
    refine ⟨by rw [h]; rfl, ?_⟩ <;>
    · show (List.range (ceilLog2 (confirmedTeams t).length)).map _ = []
      rw [h]
      rfl

/-- A tournament with a single confirmed team. -/
def soloTournament : Tournament :=
  { staleTournament with participants :=
      { maxTeams := 4, currentTeams := 1, teams := [mkConfirmedTeam "solo"] } }

/-- Witness for the C10 empty-bracket theorem at the one-team tournament. -/
theorem generateBrackets_small_witness :
    ceilLog2 (confirmedTeams soloTournament).length = 0 ∧
    (generateBrackets soloTournament).brackets = [] :=
  generateBrackets_small soloTournament (by decide)

/-- The mutation the result route applies to the found match: winner, score,
status `completed`, completion timestamp; team slots and id untouched. -/
def recordMatch (m : BracketMatch) (w : String) (s : MatchScore) (now : Int) :
    BracketMatch :=
  { m with
    winner := some w
    score := some s
    status := MatchStatus.completed
    completedAt := some now }

/-- `bracket.matches.find(m => m.matchId === matchId)` succeeded? -/
def roundHasMatch (mid : String) (rd : BracketRound) : Bool :=
  rd.«matches».any (fun m => m.matchId = mid)

/-- Replace the first match with the given id in one round's match list. -/
def updateFirstMatch (mid w : String) (s : MatchScore) (now : Int) :
    List BracketMatch → List BracketMatch
  | [] => []
  | m :: ms =>
    if m.matchId = mid then recordMatch m w s now :: ms
    else m :: updateFirstMatch mid w s now ms

/-- The `for (let bracket of tournament.brackets)` loop: update the first
round containing the id and stop; the Bool is `matchFound`. -/
def updateRounds (mid w : String) (s : MatchScore) (now : Int) :
    List BracketRound → List BracketRound × Bool
  | [] => ([], false)
  | rd :: rest =>
    if roundHasMatch mid rd then
      ({ rd with «matches» := updateFirstMatch mid w s now rd.«matches» } :: rest,
        true)
    else
      let res := updateRounds mid w s now rest
      (rd :: res.1, res.2)

/-- `PUT /api/tournaments/:id/match/:matchId`: validator (`winner` non-empty),
organizer check, then find-and-update; 404 when no round carries the id. -/
def routeRecordResult (t : Tournament) (callerId mid w : String)
    (s : MatchScore) (now : Int) : Except String Tournament :=
  if w = "" then
    Except.error "Validation failed"
  else if ¬ (t.organizerId = callerId) then
    Except.error "Only tournament organizer can update match results"
  else
    let res := updateRounds mid w s now t.brackets
    if res.2 then Except.ok { t with brackets := res.1 }
    else Except.error "Match not found"

lemma updateFirstMatch_of_not_found (mid w : String) (s : MatchScore) (now : Int)
    (ms : List BracketMatch) (h : ∀ m ∈ ms, ¬ m.matchId = mid) :
    updateFirstMatch mid w s now ms = ms := by
  induction ms with
  | nil => rfl
  | cons m rest ih =>
    unfold updateFirstMatch
    rw [if_neg (h m (List.mem_cons_self m rest))]
    rw [ih (fun x hx => h x (List.mem_cons_of_mem m hx))]

lemma updateFirstMatch_spec (mid w : String) (s : MatchScore) (now : Int)
    (ms : List BracketMatch) (h : ms.any (fun m => m.matchId = mid) = true) :
    ∃ i m, ms.get? i = some m ∧ m.matchId = mid ∧
      (∀ j m2, j < i → ms.get? j = some m2 → ¬ m2.matchId = mid) ∧
      updateFirstMatch mid w s now ms =
        ms.set i (recordMatch m w s now) := by
  induction ms with
  | nil => simp at h
  | cons m rest ih =>
    by_cases hm : m.matchId = mid
    · refine ⟨0, m, rfl, hm, by omega, ?_⟩
      unfold updateFirstMatch
      rw [if_pos hm]
      rfl
    · have hrest : rest.any (fun x => x.matchId = mid) = true := by
        simp only [List.any_cons] at h
        simpa [hm] using h
      obtain ⟨i, m2, hget, hid, hmin, heq⟩ := ih hrest
      refine ⟨i + 1, m2, hget, hid, ?_, ?_⟩
      · intro j m3 hj hget3
        cases j with
        | zero =>
          simp at hget3
          rw [hget3] at hm
          exact hm
        | succ j2 =>
          exact hmin j2 m3 (by omega) hget3
      · unfold updateFirstMatch
        rw [if_neg hm, heq]
        rfl

lemma updateRounds_of_not_found (mid w : String) (s : MatchScore) (now : Int)
    (rounds : List BracketRound)
    (h : ∀ rd ∈ rounds, roundHasMatch mid rd = false) :
    updateRounds mid w s now rounds = (rounds, false) := by
  induction rounds with
  | nil => rfl
  | cons rd rest ih =>
    unfold updateRounds
    rw [if_neg (by simp [h rd (List.mem_cons_self rd rest)])]
    rw [ih (fun x hx => h x (List.mem_cons_of_mem rd hx))]

lemma updateRounds_spec (mid w : String) (s : MatchScore) (now : Int)
    (rounds : List BracketRound)
    (h : rounds.any (roundHasMatch mid) = true) :
    ∃ j rd, rounds.get? j = some rd ∧ roundHasMatch mid rd = true ∧
      (∀ k rd2, k < j → rounds.get? k = some rd2 →
        roundHasMatch mid rd2 = false) ∧
      updateRounds mid w s now rounds =
        (rounds.set j
          { rd with «matches» := updateFirstMatch mid w s now rd.«matches» },
          true) := by
  induction rounds with
  | nil => simp at h
  | cons rd rest ih =>
    by_cases hrd : roundHasMatch mid rd = true
    · refine ⟨0, rd, rfl, hrd, by omega, ?_⟩
      unfold updateRounds
      rw [if_pos hrd]
      rfl
    · have hrest : rest.any (roundHasMatch mid) = true := by
        simp only [List.any_cons] at h
        simpa [hrd] using h
      obtain ⟨j, rd2, hget, hhas, hmin, heq⟩ := ih hrest
      refine ⟨j + 1, rd2, hget, hhas, ?_, ?_⟩
      · intro k rd3 hk hget3
        cases k with
        | zero =>
          simp at hget3
          rw [hget3] at hrd
          simpa using hrd
        | succ k2 =>
          exact hmin k2 rd3 (by omega) hget3
      · unfold updateRounds
        rw [if_neg hrd, heq]
        rfl

lemma routeRecordResult_ok (t : Tournament) (callerId mid w : String)
    (s : MatchScore) (now : Int)
    (hw : w ≠ "") (horg : t.organizerId = callerId)
    (hfound : t.brackets.any (roundHasMatch mid) = true) :
    ∃ j rd i m,
      t.brackets.get? j = some rd ∧ rd.«matches».get? i = some m ∧
      m.matchId = mid ∧
      (∀ k rd2, k < j → t.brackets.get? k = some rd2 →
        roundHasMatch mid rd2 = false) ∧
      (∀ jj mm, jj < i → rd.«matches».get? jj = some mm →
        ¬ mm.matchId = mid) ∧
      routeRecordResult t callerId mid w s now = Except.ok { t with
        brackets := t.brackets.set j
          { rd with «matches» :=
              rd.«matches».set i (recordMatch m w s now) } } := by
  obtain ⟨j, rd, hget, hhas, hmin, hupd⟩ :=
    updateRounds_spec mid w s now t.brackets hfound
  obtain ⟨i, m, hgm, hid, hmin2, hupd2⟩ :=
    updateFirstMatch_spec mid w s now rd.«matches» hhas
  refine ⟨j, rd, i, m, hget, hgm, hid, hmin, hmin2, ?_⟩
  unfold routeRecordResult
  rw [if_neg (by simpa using hw), if_neg (by simp [horg])]
  simp only [hupd, hupd2]
  rw [if_pos trivial]

lemma lt_length_of_get? {α : Type} {l : List α} {n : Nat} {a : α}
    (h : l.get? n = some a) : n < l.length := by
  by_contra hn
  rw [List.get?_eq_getElem?, List.getElem?_eq_none (by omega)] at h
  cases h

lemma mem_of_get? {α : Type} {l : List α} {n : Nat} {a : α}
    (h : l.get? n = some a) : a ∈ l := by
  rw [List.get?_eq_getElem?] at h
  exact List.getElem?_mem h

/-- Claim C5: when the organizer records a result with a non-empty winner
for a match id present in the bracket, the route succeeds; the (first) match
carrying that id gets the winner, the score, status `completed` and the
completion timestamp, while its id and both team slots are untouched; every
other match of every round is unchanged, no team slot anywhere in the
bracket changes (no winner propagation into later rounds), and the roster,
chat, schedule, status, statistics and organizer of the tournament are
unchanged. -/
theorem recordResult_spec (t : Tournament) (callerId mid w : String)
    (s : MatchScore) (now : Int)
    (hw : w ≠ "") (horg : t.organizerId = callerId)
    (hfound : t.brackets.any (roundHasMatch mid) = true) :
    ∃ t2, routeRecordResult t callerId mid w s now = Except.ok t2 ∧
      t2.participants = t.participants ∧ t2.chat = t.chat ∧
      t2.dates = t.dates ∧ t2.status = t.status ∧
      t2.statistics = t.statistics ∧ t2.organizerId = t.organizerId ∧
      t2.brackets.length = t.brackets.length ∧
      ∃ j i rd m, t.brackets.get? j = some rd ∧
        rd.«matches».get? i = some m ∧ m.matchId = mid ∧
        (∃ rd2, t2.brackets.get? j = some rd2 ∧ rd2.round = rd.round ∧
          rd2.«matches».length = rd.«matches».length ∧
          (∃ m2, rd2.«matches».get? i = some m2 ∧
            m2.winner = some w ∧ m2.score = some s ∧
            m2.status = MatchStatus.completed ∧ m2.completedAt = some now ∧
            m2.matchId = m.matchId ∧ m2.team1 = m.team1 ∧
            m2.team2 = m.team2) ∧
          (∀ i2, i2 ≠ i → rd2.«matches».get? i2 = rd.«matches».get? i2)) ∧
        (∀ j2, j2 ≠ j → t2.brackets.get? j2 = t.brackets.get? j2) ∧
        (∀ j2 rd2 rd3, t2.brackets.get? j2 = some rd2 →
          t.brackets.get? j2 = some rd3 →
          ∀ i2 m2 m3, rd2.«matches».get? i2 = some m2 →
            rd3.«matches».get? i2 = some m3 →
            m2.team1 = m3.team1 ∧ m2.team2 = m3.team2) := by
  obtain ⟨j, rd, i, m, hget, hgm, hid, hminr, hminm, heq⟩ :=
    routeRecordResult_ok t callerId mid w s now hw horg hfound
  have hjlt : j < t.brackets.length := lt_length_of_get? hget
  have hilt : i < rd.«matches».length := lt_length_of_get? hgm
  refine ⟨_, heq, rfl, rfl, rfl, rfl, rfl, rfl, by simp [List.length_set],
    j, i, rd, m, hget, hgm, hid, ?_, ?_, ?_⟩
  · refine ⟨{ rd with «matches» := rd.«matches».set i (recordMatch m w s now) },
      ?_, rfl, by simp [List.length_set], ?_, ?_⟩
    · show (t.brackets.set j _).get? j = _
      rw [List.get?_eq_getElem?, List.getElem?_set_self hjlt]
    · refine ⟨recordMatch m w s now, ?_, rfl, rfl, rfl, rfl, rfl, rfl, rfl⟩
      show (rd.«matches».set i _).get? i = _
      rw [List.get?_eq_getElem?, List.getElem?_set_self hilt]
    · intro i2 hne
      show (rd.«matches».set i _).get? i2 = _
      rw [List.get?_eq_getElem?, List.getElem?_set_ne (fun hh => hne hh.symm),
        List.get?_eq_getElem?]
  · intro j2 hne
    show (t.brackets.set j _).get? j2 = _
    rw [List.get?_eq_getElem?, List.getElem?_set_ne (fun hh => hne hh.symm),
      List.get?_eq_getElem?]
  · intro j2 rd2 rd3 h2 h3 i2 m2 m3 hm2 hm3
    dsimp only at h2
    by_cases hj : j2 = j
    · subst hj
      rw [List.get?_eq_getElem?, List.getElem?_set_self hjlt] at h2
      have hrd2 : rd2 = { rd with «matches» := rd.«matches».set i (recordMatch m w s now) } := by
        injection h2 with h2e
        exact h2e.symm
      have hrd3 : rd3 = rd := by
        rw [hget] at h3
        injection h3 with h3e
        exact h3e.symm
      subst hrd2
      subst hrd3
      dsimp only at hm2
      by_cases hii : i2 = i
      · subst hii
        rw [List.get?_eq_getElem?, List.getElem?_set_self hilt] at hm2
        rw [hgm] at hm3
        injection hm2 with hm2e
        injection hm3 with hm3e
        rw [← hm2e, ← hm3e]
        exact ⟨rfl, rfl⟩
      · rw [List.get?_eq_getElem?,
          List.getElem?_set_ne (fun hh => hii hh.symm),
          ← List.get?_eq_getElem?, hm3] at hm2
        injection hm2 with hm2e
        rw [← hm2e]
        exact ⟨rfl, rfl⟩
    · rw [List.get?_eq_getElem?, List.getElem?_set_ne (fun hh => hj hh.symm),
        ← List.get?_eq_getElem?, h3] at h2
      injection h2 with h2e
      rw [← h2e] at hm2
      rw [hm3] at hm2
      injection hm2 with hm2e
      rw [← hm2e]
      exact ⟨rfl, rfl⟩

/-- Claim C9: the result route never validates the winner against the
match's team references: for any match carrying the requested id and any
non-empty winner value — in particular one that is neither team reference of
that match — the organizer's call succeeds, and the (first) match with that
id ends up with exactly that value stored as its winner, its team slots
unchanged. -/
theorem recordResult_any_winner (t : Tournament) (callerId mid w : String)
    (s : MatchScore) (now : Int) (j i : Nat) (rd : BracketRound)
    (m : BracketMatch)
    (hw : w ≠ "") (horg : t.organizerId = callerId)
    (hj : t.brackets.get? j = some rd) (hi : rd.«matches».get? i = some m)
    (hid : m.matchId = mid)
    (_hnot1 : m.team1 ≠ some w) (_hnot2 : m.team2 ≠ some w) :
    ∃ t2, routeRecordResult t callerId mid w s now = Except.ok t2 ∧
      ∃ j2 i2 rd0 m0 rd2, t.brackets.get? j2 = some rd0 ∧
        rd0.«matches».get? i2 = some m0 ∧ m0.matchId = mid ∧
        t2.brackets.get? j2 = some rd2 ∧
        ∃ m2, rd2.«matches».get? i2 = some m2 ∧ m2.winner = some w ∧
          m2.matchId = mid ∧ m2.team1 = m0.team1 ∧ m2.team2 = m0.team2 := by
  have hfound : t.brackets.any (roundHasMatch mid) = true := by
    rw [List.any_eq_true]
    refine ⟨rd, mem_of_get? hj, ?_⟩
    rw [roundHasMatch, List.any_eq_true]
    exact ⟨m, mem_of_get? hi, by simp [hid]⟩
  obtain ⟨j2, rd0, i2, m0, hget, hgm, hid0, hminr, hminm, heq⟩ :=
    routeRecordResult_ok t callerId mid w s now hw horg hfound
  have hjlt : j2 < t.brackets.length := lt_length_of_get? hget
  have hilt : i2 < rd0.«matches».length := lt_length_of_get? hgm
  refine ⟨_, heq, j2, i2, rd0, m0,
    { rd0 with «matches» := rd0.«matches».set i2 (recordMatch m0 w s now) },
    hget, hgm, hid0, ?_, recordMatch m0 w s now, ?_, rfl, hid0, rfl, rfl⟩
  · show (t.brackets.set j2 _).get? j2 = _
    rw [List.get?_eq_getElem?, List.getElem?_set_self hjlt]
  · show (rd0.«matches».set i2 _).get? i2 = _
    rw [List.get?_eq_getElem?, List.getElem?_set_self hilt]

/-- A pending match literal used by the concrete bracket witnesses. -/
def pendingMatch (midArg : String) (a b : Option String) : BracketMatch :=
  { matchId := midArg
    team1 := a
    team2 := b
    winner := none
    score := none
    status := MatchStatus.pending
    scheduledTime := none
    completedAt := none }

/-- A concrete tournament with a two-round bracket. -/
def bracketTournament : Tournament :=
  { staleTournament with brackets := [
      { round := 1, «matches» :=
        [pendingMatch "R1M1" (some "a") (some "b"),
         pendingMatch "R1M2" (some "c") (some "d")] },
      { round := 2, «matches» := [pendingMatch "R2M1" none none] }] }

/-- Witness for the C5 frame theorem: recording `R1M1` updates exactly that
match and nothing else of the concrete tournament. -/
theorem recordResult_spec_witness :
    routeRecordResult bracketTournament "org" "R1M1" "alice" ⟨2, 1⟩ 99 =
      Except.ok { bracketTournament with brackets := [
        { round := 1, «matches» :=
          [{ pendingMatch "R1M1" (some "a") (some "b") with
              winner := some "alice"
              score := some ⟨2, 1⟩
              status := MatchStatus.completed
              completedAt := some 99 },
           pendingMatch "R1M2" (some "c") (some "d")] },
        { round := 2, «matches» := [pendingMatch "R2M1" none none] }] } := by
  have h := recordResult_spec bracketTournament "org" "R1M1" "alice" ⟨2, 1⟩ 99
    (by decide) rfl (by decide)
  rfl

/-- Witness for the C9 theorem: the winner value `zzz`, which is neither
team reference of `R1M2`, is accepted and stored verbatim. -/
theorem recordResult_any_winner_witness :
    routeRecordResult bracketTournament "org" "R1M2" "zzz" ⟨0, 3⟩ 77 =
      Except.ok { bracketTournament with brackets := [
        { round := 1, «matches» :=
          [pendingMatch "R1M1" (some "a") (some "b"),
           { pendingMatch "R1M2" (some "c") (some "d") with
              winner := some "zzz"
              score := some ⟨0, 3⟩
              status := MatchStatus.completed
              completedAt := some 77 }] },
        { round := 2, «matches» := [pendingMatch "R2M1" none none] }] } := by
  have h := recordResult_any_winner bracketTournament "org" "R1M2" "zzz"
    ⟨0, 3⟩ 77 0 1 ⟨1, [pendingMatch "R1M1" (some "a") (some "b"),
      pendingMatch "R1M2" (some "c") (some "d")]⟩
    (pendingMatch "R1M2" (some "c") (some "d"))
    (by decide) rfl (by rfl) (by rfl) (by rfl) (by decide) (by decide)
  rfl

/-- JS `String.prototype.trim`: strip leading and trailing whitespace;
defined over the character list so it evaluates by kernel reduction. -/
def trimChars (s : String) : String :=
  String.mk (((s.data.dropWhile Char.isWhitespace).reverse.dropWhile
    Char.isWhitespace).reverse)

/-- `POST /api/chat/tournament/:tournamentId`: validator trims the message
and requires 1–500 characters; the sender must be a registered player or the
organizer; on success one message is pushed onto the chat array. `msgId`
models the store-generated subdocument id. -/
def postChatMessage (t : Tournament) (uid uname text msgId : String)
    (now : Int) : Except String Tournament :=
  let msg := trimChars text
  if ¬ (1 ≤ msg.length ∧ msg.length ≤ 500) then
    Except.error "Validation failed"
  else if ¬ (alreadyRegistered t uid = true ∨ t.organizerId = uid) then
    Except.error "You must be registered for this tournament to chat"
  else
    Except.ok { t with chat := t.chat ++
      [{ msgId := msgId
         userId := some uid
         username := uname
         message := msg
         timestamp := now
         isSystemMessage := false }] }

/-- `POST /api/chat/tournament/:tournamentId/system`: organizer only; pushes
one system message (`userId: null`, `username: 'System'`). -/
def postSystemMessage (t : Tournament) (callerId text msgId : String)
    (now : Int) : Except String Tournament :=
  let msg := trimChars text
  if ¬ (1 ≤ msg.length ∧ msg.length ≤ 500) then
    Except.error "Validation failed"
  else if ¬ (t.organizerId = callerId) then
    Except.error "Only tournament organizer can send system messages"
  else
    Except.ok { t with chat := t.chat ++
      [{ msgId := msgId
         userId := none
         username := "System"
         message := msg
         timestamp := now
         isSystemMessage := true }] }

/-- `DELETE /api/chat/tournament/:tournamentId/message/:messageId`: finds the
message by id, lets the author or the organizer delete it, and splices it
out of the array. The inner `none` arm is unreachable (`findIdx?` returned
an index). -/
def deleteChatMessage (t : Tournament) (callerId msgId : String) :
    Except String Tournament :=
  match t.chat.findIdx? (fun msg => msg.msgId = msgId) with
  | none => Except.error "Message not found"
  | some i =>
    match t.chat.get? i with
    | none => Except.error "Message not found"
    | some msg =>
      let isAuthor : Bool := match msg.userId with
        | some u => u = callerId
        | none => false
      let isOrganizer : Bool := t.organizerId = callerId
      if ¬ (isAuthor = true ∨ isOrganizer = true) then
        Except.error "You can only delete your own messages"
      else
        Except.ok { t with chat := t.chat.eraseIdx i }

/-- A concrete tournament with a one-message chat log. -/
def chatTournament : Tournament :=
  { staleTournament with chat :=
      [{ msgId := "m1"
         userId := some "alice"
         username := "Alice"
         message := "hello"
         timestamp := 1
         isSystemMessage := false }] }

/-- Claim C8 counterexample: the message-deletion route removes an existing
message — the chat log after the call is shorter than before and is not an
extension of it, so the log is not append-only across all operations. -/
theorem chat_delete_counterexample :
    deleteChatMessage chatTournament "org" "m1" =
      Except.ok { chatTournament with chat := [] } ∧
    chatTournament.chat.length = 1 ∧
    (∀ ext : List ChatMessage,
      ([] : List ChatMessage) ≠ chatTournament.chat ++ ext) := by
  refine ⟨by rfl, by rfl, ?_⟩
  intro ext h
  have := congrArg List.length h
  simp [chatTournament] at this

/-- Claim C8 (amended): the two message-posting routes are append-only — on
success the new chat log is exactly the old one with a single message
appended — but the deletion route removes precisely the addressed message:
on success the new log is the old one with the entry at the found index
spliced out (order of the remainder preserved), so the log is append-only
except for explicit deletions. -/
theorem chat_log_ops (t : Tournament) (uid uname text msgId callerId : String)
    (now : Int)
    (hlen : 1 ≤ (trimChars text).length ∧ (trimChars text).length ≤ 500)
    (hmember : alreadyRegistered t uid = true ∨ t.organizerId = uid)
    (horg : t.organizerId = callerId) :
    (postChatMessage t uid uname text msgId now = Except.ok { t with
      chat := t.chat ++
        [{ msgId := msgId
           userId := some uid
           username := uname
           message := trimChars text
           timestamp := now
           isSystemMessage := false }] }) ∧
    (postSystemMessage t callerId text msgId now = Except.ok { t with
      chat := t.chat ++
        [{ msgId := msgId
           userId := none
           username := "System"
           message := trimChars text
           timestamp := now
           isSystemMessage := true }] }) ∧
    (∀ t2, deleteChatMessage t callerId msgId = Except.ok t2 →
      ∃ i msg, t.chat.findIdx? (fun m => m.msgId = msgId) = some i ∧
        t.chat.get? i = some msg ∧ msg.msgId = msgId ∧
        t2.chat = t.chat.take i ++ t.chat.drop (i + 1) ∧
        t2.chat.length + 1 = t.chat.length) := by
  refine ⟨?_, ?_, ?_⟩
  · unfold postChatMessage
    rw [if_neg (not_not_intro hlen), if_neg (not_not_intro hmember)]
  · unfold postSystemMessage
    rw [if_neg (not_not_intro hlen), if_neg (not_not_intro horg)]
  · intro t2 hdel
    unfold deleteChatMessage at hdel
    cases hfind : t.chat.findIdx? (fun m => m.msgId = msgId) with
    | none =>
      rw [hfind] at hdel
      exact Except.noConfusion hdel
    | some i =>
      rw [hfind] at hdel
      dsimp only at hdel
      have hi : i < t.chat.length :=
        (List.findIdx?_eq_some_iff_findIdx_eq.mp hfind).1
      cases hget : t.chat.get? i with
      | none =>
        rw [hget] at hdel
        exact Except.noConfusion hdel
      | some msg =>
        rw [hget] at hdel
        dsimp only at hdel
        obtain ⟨hi2, hp, -⟩ := List.findIdx?_eq_some_iff_getElem.mp hfind
        have hmsg : msg.msgId = msgId := by
          rw [List.get?_eq_getElem?, List.getElem?_eq_getElem hi2] at hget
          injection hget with hg
          rw [hg] at hp
          exact of_decide_eq_true hp
        split_ifs at hdel with hperm
        injection hdel with hok
        refine ⟨i, msg, rfl, hget, hmsg, ?_, ?_⟩
        · rw [← hok]
          exact List.eraseIdx_eq_take_drop_succ t.chat i
        · rw [← hok]
          show (t.chat.eraseIdx i).length + 1 = t.chat.length
          rw [List.length_eraseIdx, if_pos hi]
          omega

/-- Witness for the C8 theorem: the organizer posts a message and the log
grows by exactly that message at the end. -/
theorem chat_log_ops_witness :
    postChatMessage chatTournament "org" "Org" "gg" "m2" 5 =
      Except.ok { chatTournament with chat := chatTournament.chat ++
        [{ msgId := "m2"
           userId := some "org"
           username := "Org"
           message := trimChars "gg"
           timestamp := 5
           isSystemMessage := false }] } :=
  (chat_log_ops chatTournament "org" "Org" "gg" "m2" "org" 5
    (by decide) (Or.inr rfl) rfl).1

/-- One element of a user's `gameStats` array (the ranking-relevant
fields). -/
structure GameStat where
  game : String
  score : Int
deriving DecidableEq, Repr

/-- The ranking-relevant projection of a user document: id, active flag,
`stats.totalScore` and the `gameStats` array. -/
structure UserRec where
  uid : String
  isActive : Bool
  totalScore : Int
  gameStats : List GameStat
deriving DecidableEq, Repr

/-- The `$match: { isActive: true }` stage. -/
def activeUsers (db : List UserRec) : List UserRec :=
  db.filter (fun u => u.isActive)

/-- The route's scope test `game && game !== 'overall'`: `some g` selects
the per-game branch, anything else the overall branch. -/
def gameFilter (game? : Option String) : Option String :=
  match game? with
  | none => none
  | some g => if g = "overall" then none else some g

/-- `user.gameStats.find(stat => stat.game === game)?.score || 0` in the
game branch, `user.stats.totalScore` in the overall branch. -/
def userScore (user : UserRec) (game? : Option String) : Int :=
  match gameFilter game? with
  | some g =>
    match user.gameStats.find? (fun st => st.game = g) with
    | some st => st.score
    | none => 0
  | none => user.totalScore

/-- The `countDocuments(rankQuery)` predicate. In the game branch the two
dot-notation conditions on the `gameStats` array are separate query fields
(no `$elemMatch`), and Mongo satisfies each with a possibly *different*
array element: the document matches when some element has the requested
game and some element — of any game — has a strictly greater score. -/
def matchesRankQuery (game? : Option String) (s : Int) (u : UserRec) : Bool :=
  match gameFilter game? with
  | some g =>
    u.isActive && u.gameStats.any (fun st => st.game = g) &&
      u.gameStats.any (fun st => s < st.score)
  | none => u.isActive && decide (s < u.totalScore)

/-- One row of the sorted neighbor scope: the user document together with
the score the scope sorts by (the unwound `gameStats.score` in the game
branch, `stats.totalScore` otherwise). -/
structure ScopeRow where
  user : UserRec
  rowScore : Int
deriving DecidableEq, Repr

/-- The neighbor pipeline before sorting: `$match isActive` and, in the
game branch, `$unwind gameStats` followed by `$match gameStats.game`. -/
def scopeRows (db : List UserRec) (game? : Option String) : List ScopeRow :=
  match gameFilter game? with
  | some g =>
    (activeUsers db).flatMap (fun u =>
      (u.gameStats.filter (fun st => st.game = g)).map
        (fun st => { user := u, rowScore := st.score }))
  | none =>
    (activeUsers db).map (fun u => { user := u, rowScore := u.totalScore })

/-- Stable insertion used to model the store's descending sort. -/
def insertRowDesc (r : ScopeRow) : List ScopeRow → List ScopeRow
  | [] => [r]
  | v :: vs =>
    if v.rowScore < r.rowScore then r :: v :: vs else v :: insertRowDesc r vs

/-- The `$sort: { score: -1 }` stage, modelled as a stable descending
insertion sort. -/
def sortRowsDesc : List ScopeRow → List ScopeRow
  | [] => []
  | r :: rs => insertRowDesc r (sortRowsDesc rs)

/-- One row of the `nearbyPlayers` response. -/
structure RankedPlayer where
  row : ScopeRow
  rank : Nat
  isCurrentUser : Bool
deriving DecidableEq, Repr

/-- `GET /api/leaderboard/user/:userId/rank`: rank is `1 + countDocuments`
of the scope's rank query; the neighbor pipeline skips
`max(0, userRank - 6)` rows of the sorted scope and limits to 11, and each
row is labelled `max(1, userRank - 5) + index` with an identity flag. -/
def getUserRank (db : List UserRec) (user : UserRec) (game? : Option String) :
    Nat × List RankedPlayer :=
  let s := userScore user game?
  let usersAbove := (db.filter (matchesRankQuery game? s)).length
  let userRank := usersAbove + 1
  let sorted := sortRowsDesc (scopeRows db game?)
  let nearby := (sorted.drop (userRank - 6)).take 11
  (userRank,
    nearby.enum.map (fun p =>
      { row := p.2
        rank := max 1 (userRank - 5) + p.1
        isCurrentUser := p.2.user.uid = user.uid }))

/-- Eleven active users with strictly decreasing total scores and no
per-game stats. -/
def elevenUsers : List UserRec :=
  [⟨"u1", true, 110, []⟩, ⟨"u2", true, 100, []⟩, ⟨"u3", true, 90, []⟩,
   ⟨"u4", true, 80, []⟩, ⟨"u5", true, 70, []⟩, ⟨"u6", true, 60, []⟩,
   ⟨"u7", true, 50, []⟩, ⟨"u8", true, 40, []⟩, ⟨"u9", true, 30, []⟩,
   ⟨"u10", true, 20, []⟩, ⟨"u11", true, 10, []⟩]

/-- The valorant leader: one valorant entry scoring 50. -/
def gameUserA : UserRec := ⟨"gA", true, 50, [⟨"valorant", 50⟩]⟩

/-- A user with a low valorant entry (10) but a high cs2 entry (100). -/
def gameUserB : UserRec :=
  ⟨"gB", true, 100, [⟨"valorant", 10⟩, ⟨"cs2", 100⟩]⟩

/-- The two-user population for the game-scope counterexample. -/
def gameUsers : List UserRec := [gameUserA, gameUserB]

/-- Claim C6 counterexample. Overall scope: for the top-ranked user of an
eleven-user population the neighbor list contains the users at ranks 1
through 11 — eleven rows, not the claimed window `[1..6]` of six rows —
because the pipeline always takes 11 rows after skipping
`max(0, rank - 6)`. Game scope: no active user has a valorant score
strictly greater than gA's 50, so the claimed rank is 1, yet the route
returns 2: the rank query's two array conditions are matched by different
`gameStats` elements of gB (its valorant entry and its higher-scoring cs2
entry). -/
theorem getUserRank_claim_false :
    ((getUserRank elevenUsers ⟨"u1", true, 110, []⟩ none).1 = 1 ∧
     (getUserRank elevenUsers ⟨"u1", true, 110, []⟩ none).2.map
        RankedPlayer.rank = [1, 2, 3, 4, 5, 6, 7, 8, 9, 10, 11] ∧
     (getUserRank elevenUsers ⟨"u1", true, 110, []⟩ none).2.length ≠ 6) ∧
    ((getUserRank gameUsers gameUserA (some "valorant")).1 = 2 ∧
     (gameUsers.filter (fun u => u.isActive ∧
        u.gameStats.any (fun st => st.game = "valorant" ∧
          userScore gameUserA (some "valorant") < st.score))).length = 0) := by
  decide

lemma filter_length_mono {α : Type} (p q : α → Bool) (l : List α)
    (h : ∀ a ∈ l, p a = true → q a = true) :
    (l.filter p).length ≤ (l.filter q).length := by
  induction l with
  | nil => simp
  | cons a as ih =>
    have hrest := ih (fun x hx => h x (List.mem_cons_of_mem a hx))
    simp only [List.filter_cons]
    by_cases hp : p a = true
    · rw [if_pos hp, if_pos (h a (List.mem_cons_self a as) hp)]
      simpa using hrest
    · rw [if_neg hp]
      split_ifs with hq
      · calc (as.filter p).length ≤ (as.filter q).length := hrest
          _ ≤ (a :: as.filter q).length := by simp
      · exact hrest

/-- Claim C6 (amended): in every scope the returned rank is `1 +
countDocuments(rankQuery)`. In the overall scope that is exactly
`1 + count(active users with strictly greater totalScore)`. In the game
scope the two array conditions of the query are satisfied independently
(no `$elemMatch`): the rank is `1 + count(active users having some entry
for the game and some entry — of any game — with a strictly greater
score)`, which is at least, but not in general equal to, `1 + count(active
users with a strictly greater score in that game)`. The neighbor list
consists of up to 11 consecutive rows of the descending sorted scope
starting at 0-based position `userRank - 6` (clamped at 0) — covering
ranks `[max(1, userRank-5), max(1, userRank-5)+10]` intersected with the
population; each row's displayed rank equals its true 1-based position in
the sorted scope, and its `isCurrentUser` flag is an identity match; in
particular a user at rank 1 over a scope of at least 11 rows gets
neighbors at ranks 1 through 11 (not 1 through 6). -/
theorem getUserRank_spec (db : List UserRec) (user : UserRec)
    (game? : Option String) :
    (getUserRank db user game?).1 =
      (db.filter (matchesRankQuery game? (userScore user game?))).length
        + 1 ∧
    (gameFilter game? = none →
      (getUserRank db user game?).1 =
        (db.filter (fun u =>
          u.isActive && decide (user.totalScore < u.totalScore))).length
          + 1) ∧
    (∀ g, gameFilter game? = some g →
      (getUserRank db user game?).1 =
        (db.filter (fun u => u.isActive &&
          u.gameStats.any (fun st => st.game = g) &&
          u.gameStats.any (fun st =>
            userScore user game? < st.score))).length + 1) ∧
    (∀ g, gameFilter game? = some g →
      (db.filter (fun u => u.isActive &&
        u.gameStats.any (fun st => st.game = g ∧
          userScore user game? < st.score))).length + 1 ≤
        (getUserRank db user game?).1) ∧
    (getUserRank db user game?).2.length =
      min 11 ((sortRowsDesc (scopeRows db game?)).length -
        ((getUserRank db user game?).1 - 6)) ∧
    (∀ k rp, (getUserRank db user game?).2.get? k = some rp →
      (sortRowsDesc (scopeRows db game?)).get?
          (((getUserRank db user game?).1 - 6) + k) = some rp.row ∧
      rp.rank = ((getUserRank db user game?).1 - 6) + k + 1 ∧
      rp.isCurrentUser = decide (rp.row.user.uid = user.uid)) ∧
    ((getUserRank db user game?).1 = 1 →
      11 ≤ (sortRowsDesc (scopeRows db game?)).length →
      (getUserRank db user game?).2.map RankedPlayer.rank =
        [1, 2, 3, 4, 5, 6, 7, 8, 9, 10, 11]) := by
  have hrdef : (getUserRank db user game?).1 =
      (db.filter (matchesRankQuery game? (userScore user game?))).length
        + 1 := rfl
  have hr1 : 1 ≤ (getUserRank db user game?).1 := by omega
  have hnb : (getUserRank db user game?).2 =
      (((sortRowsDesc (scopeRows db game?)).drop
          ((getUserRank db user game?).1 - 6)).take 11).enum.map
        (fun p => { row := p.2
                    rank := max 1 ((getUserRank db user game?).1 - 5) + p.1
                    isCurrentUser :=
                      decide (p.2.user.uid = user.uid) }) := rfl
  refine ⟨rfl, ?_, ?_, ?_, ?_, ?_, ?_⟩
  · intro hg
    have hs : userScore user game? = user.totalScore := by
      unfold userScore
      rw [hg]
    have hpred : matchesRankQuery game? (userScore user game?) =
        fun u => u.isActive && decide (user.totalScore < u.totalScore) := by
      funext u
      unfold matchesRankQuery
      rw [hg, hs]
    rw [hrdef, hpred]
  · intro g hg
    have hpred : matchesRankQuery game? (userScore user game?) =
        fun u => u.isActive && u.gameStats.any (fun st => st.game = g) &&
          u.gameStats.any (fun st => userScore user game? < st.score) := by
      funext u
      unfold matchesRankQuery
      rw [hg]
    rw [hrdef, hpred]
  · intro g hg
    have hpred : matchesRankQuery game? (userScore user game?) =
        fun u => u.isActive && u.gameStats.any (fun st => st.game = g) &&
          u.gameStats.any (fun st => userScore user game? < st.score) := by
      funext u
      unfold matchesRankQuery
      rw [hg]
    rw [hrdef, hpred]
    have hmono := filter_length_mono
      (fun u => u.isActive && u.gameStats.any (fun st => st.game = g ∧
        userScore user game? < st.score))
      (fun u => u.isActive && u.gameStats.any (fun st => st.game = g) &&
        u.gameStats.any (fun st => userScore user game? < st.score))
      db ?_
    · omega
    · intro u hu hp
      simp only [Bool.and_eq_true, List.any_eq_true] at hp ⊢
      obtain ⟨hact, st, hst, hboth⟩ := hp
      obtain ⟨hgame, hgt⟩ := of_decide_eq_true hboth
      exact ⟨⟨hact, st, hst, by simp [hgame]⟩, st, hst, by simp [hgt]⟩
  · rw [hnb]
    simp [List.length_take, List.length_drop]
  · intro k rp h
    rw [hnb, List.get?_eq_getElem?, List.getElem?_map] at h
    rcases hx : (((sortRowsDesc (scopeRows db game?)).drop
        ((getUserRank db user game?).1 - 6)).take 11).enum[k]? with _ | p
    · rw [hx] at h
      cases h
    · rw [hx] at h
      injection h with hrp
      rw [List.getElem?_enum] at hx
      rcases hy : (((sortRowsDesc (scopeRows db game?)).drop
          ((getUserRank db user game?).1 - 6)).take 11)[k]? with _ | a
      · rw [hy] at hx
        cases hx
      · rw [hy] at hx
        injection hx with hp
        rw [List.getElem?_take] at hy
        split_ifs at hy with hk
        · rw [List.getElem?_drop] at hy
          rw [← hrp, ← hp]
          refine ⟨?_, ?_, rfl⟩
          · rw [List.get?_eq_getElem?]
            exact hy
          · show max 1 ((getUserRank db user game?).1 - 5) + k =
              ((getUserRank db user game?).1 - 6) + k + 1
            omega
  · intro h1 hlen
    rw [hnb, h1, List.map_map]
    have hcomp : (RankedPlayer.rank ∘ (fun p : Nat × ScopeRow =>
        ({ row := p.2
           rank := max 1 (1 - 5) + p.1
           isCurrentUser :=
             decide (p.2.user.uid = user.uid) } : RankedPlayer))) =
        ((fun x => max 1 (1 - 5) + x) ∘ Prod.fst) := rfl
    rw [hcomp, ← List.map_map, List.enum_map_fst, List.length_take,
      List.length_drop]
    have hlen2 : min 11
        ((sortRowsDesc (scopeRows db game?)).length - (1 - 6)) = 11 := by
      omega
    rw [show (11 : Nat) ⊓
        ((sortRowsDesc (scopeRows db game?)).length - (1 - 6)) =
        min 11 ((sortRowsDesc (scopeRows db game?)).length - (1 - 6))
        from rfl,
      hlen2]
    decide

/-- Witness for the C6 amended theorem: the rank-1 user of the eleven-user
overall scope gets neighbor ranks 1 through 11. -/
theorem getUserRank_spec_witness :
    (getUserRank elevenUsers ⟨"u1", true, 110, []⟩ none).2.map
        RankedPlayer.rank = [1, 2, 3, 4, 5, 6, 7, 8, 9, 10, 11] :=
  (getUserRank_spec elevenUsers ⟨"u1", true, 110, []⟩ none).2.2.2.2.2.2
    (by decide) (by decide)
